import Mathlib

/-!
Verification of the spalloc client core (`spalloc/protocol_client.py` and
`spalloc/job.py`) against its natural-language specification.

The Python code is shallowly embedded: each stateful loop becomes a Lean
function over an explicit environment trace (received lines with arrival
delays, polled job states, wait outcomes), time is a `Nat` counter, and
exceptions become explicit result constructors.
-/

/-- A decoded JSON line received from the server (`_recv_json` result).
`ret` is the value under the key `"return"` when that key is present
(the line is then a response), `none` when absent (a pushed message that
`call` diverts to the `_notifications` queue).  `body` is an abstract
identity for the decoded object so that distinct lines stay distinct. -/
structure Msg where
  ret : Option Nat
  body : Nat
deriving DecidableEq, Repr

/-- Outcome of `ProtocolClient.call` (protocol_client.py lines 212-259).
`success v` is `return obj["return"]`; `timeoutErr` is a raised
`ProtocolTimeoutError`; `noResponse` is the implicit `return None` reached
when the `while finish_time > time.time()` guard fails; `blocked` marks a
run with no deadline and no further incoming data (the Python loop would
block forever inside `recv`). -/
inductive CallResult
  | success (v : Nat)
  | timeoutErr
  | noResponse
  | blocked
deriving DecidableEq, Repr

/-- Guard of the receive loops: `finish_time is None or finish_time > time.time()`
fails exactly when a deadline exists and has been reached. -/
def expired (finish : Option Nat) (now : Nat) : Bool :=
  match finish with
  | none => false
  | some f => f ≤ now

/-- Remaining time `max(finish_time - time.time(), 0.0)` (line 251); `none`
means no deadline. -/
def timeLeftOf (finish : Option Nat) (now : Nat) : Option Nat :=
  finish.map (fun f => f - now)

/-- A socket `recv` bounded by timeout `tl` raises `socket.timeout` exactly
when the next line needs longer than `tl` to arrive. -/
def recvTimesOut (d : Nat) (tl : Option Nat) : Bool :=
  match tl with
  | none => false
  | some t => t < d

/-- Receive loop of `call` (protocol_client.py lines 247-259), embedded over
an environment trace: `events` lists the lines the server will deliver,
each with the delay from the start of the enclosing `recv` until its
newline completes.  Each iteration re-checks the deadline, receives one
line within the remaining time (or raises `ProtocolTimeoutError`), returns
`obj["return"]` when the key is present, and otherwise appends the line to
the notification queue and retries. -/
def callLoop : Option Nat → Nat → List (Nat × Msg) → List Msg → CallResult × List Msg
  | finish, now, events, notifs =>
    if expired finish now then (CallResult.noResponse, notifs)
    else
      match events with
      | [] =>
        match finish with
        | none => (CallResult.blocked, notifs)
        | some _ => (CallResult.timeoutErr, notifs)
      | (d, m) :: es =>
        if recvTimesOut d (timeLeftOf finish now) then (CallResult.timeoutErr, notifs)
        else
          match m.ret with
          | some v => (CallResult.success v, notifs)
          | none => callLoop finish (now + d) es (notifs ++ [m])

/-- Embedding of `ProtocolClient.call` (lines 212-259): builds and sends the
command object `{"command": name, "args": ..., "kwargs": ...}` (the send is
assumed delivered; it does not influence the receive loop), computes
`finish_time = time.time() + timeout`, then runs the receive loop.  The
reply processing never inspects `name`. -/
def call (name : String) (timeout : Option Nat) (now : Nat)
    (events : List (Nat × Msg)) (notifs : List Msg) : CallResult × List Msg :=
  let _cmdName := name
  callLoop (timeout.map (fun t => now + t)) now events notifs

/-- Value of the `"return"` key of the first line in the trace that has one. -/
def firstReturn : List (Nat × Msg) → Option Nat
  | [] => none
  | (_, m) :: es =>
    match m.ret with
    | some v => some v
    | none => firstReturn es

/-- Lines of the trace that precede the first response line (all of them
lack a `"return"` key). -/
def notifsBefore : List (Nat × Msg) → List Msg
  | [] => []
  | (_, m) :: es =>
    match m.ret with
    | some _ => []
    | none => m :: notifsBefore es

theorem callLoop_none_first_return (events : List (Nat × Msg)) :
    ∀ (now : Nat) (notifs : List Msg) (v : Nat), firstReturn events = some v →
      callLoop none now events notifs = (CallResult.success v, notifs ++ notifsBefore events) := by
  induction events with
  | nil => intro now notifs v h; simp [firstReturn] at h
  | cons e es ih =>
    intro now notifs v h
    obtain ⟨d, m⟩ := e
    unfold callLoop
    cases hr : m.ret with
    | some w =>
      simp [firstReturn, hr] at h
      simp [expired, recvTimesOut, timeLeftOf, hr, notifsBefore, h]
    | none =>
      simp [firstReturn, hr] at h
      simp only [expired, recvTimesOut, timeLeftOf, hr, notifsBefore]
      simp [ih (now + d) (notifs ++ [m]) v h, notifsBefore, hr]

theorem callLoop_success_first_return (events : List (Nat × Msg)) :
    ∀ (finish : Option Nat) (now : Nat) (notifs notifs2 : List Msg) (v : Nat),
      callLoop finish now events notifs = (CallResult.success v, notifs2) →
      firstReturn events = some v := by
  induction events with
  | nil =>
    intro finish now notifs notifs2 v h
    unfold callLoop at h
    cases finish <;> simp_all [expired]
    split at h <;> simp_all
  | cons e es ih =>
    intro finish now notifs notifs2 v h
    obtain ⟨d, m⟩ := e
    unfold callLoop at h
    by_cases he : expired finish now = true
    · simp [he] at h
    · rw [if_neg he] at h
      dsimp only at h
      by_cases ht : recvTimesOut d (timeLeftOf finish now) = true
      · simp [ht] at h
      · rw [if_neg ht] at h
        cases hr : m.ret with
        | some w =>
          simp only [hr] at h
          simp only [Prod.mk.injEq, CallResult.success.injEq] at h
          simp [firstReturn, hr, h.1]
        | none =>
          simp only [hr] at h
          simp only [firstReturn, hr]
          exact ih _ _ _ _ _ h

/-- C1: for every command name and every trace of received lines, `call`
with no deadline returns exactly the `"return"` value of the first received
line carrying that key, appends every earlier (return-less) line to the
notification queue in arrival order, and — for any deadline — whenever it
completes with a value, that value is the first line's `"return"` value,
so a notification object is never the call result. -/
theorem c1_call_first_return (name : String) (now : Nat)
    (events : List (Nat × Msg)) (notifs : List Msg) :
    (∀ v : Nat, firstReturn events = some v →
      call name none now events notifs = (CallResult.success v, notifs ++ notifsBefore events))
    ∧ (∀ (finish : Option Nat) (notifs2 : List Msg) (v : Nat),
      callLoop finish now events notifs = (CallResult.success v, notifs2) →
      firstReturn events = some v) := by
  constructor
  · intro v h
    unfold call
    simpa using callLoop_none_first_return events now notifs v h
  · intro finish notifs2 v h
    exact callLoop_success_first_return events finish now notifs notifs2 v h

/-- Witness for C1 at a concrete trace: a pushed line then a response. -/
theorem c1_call_first_return_witness :
    call ("get_job_state") none 0 [(1, ⟨none, 7⟩), (2, ⟨some 5, 8⟩)] [] =
      (CallResult.success 5, [⟨none, 7⟩]) := by
  have h := (c1_call_first_return ("get_job_state") 0 [(1, ⟨none, 7⟩), (2, ⟨some 5, 8⟩)] []).1 5 (by decide)
  simpa using h

/-- Outcome of `ProtocolClient.wait_for_notification`
(protocol_client.py lines 261-297).  `got m` is a delivered message
(either popped from the queue or freshly received), `noneAvail` is the
`return None` of a negative timeout with an empty queue, `timeoutErr` a
raised `ProtocolTimeoutError`, `blocked` an unbounded `recv` with no
further incoming data. -/
inductive WaitResult
  | got (m : Msg)
  | noneAvail
  | timeoutErr
  | blocked
deriving DecidableEq, Repr

/-- Embedding of `_recv_json` at the granularity of whole lines, for the
`wait_for_notification` path: the head event of the trace is the next line
together with its arrival delay; a bounded `recv` whose next line needs
longer than the timeout raises `ProtocolTimeoutError` and consumes
nothing. -/
def recv_json (timeout : Option Int) (events : List (Nat × Msg)) :
    WaitResult × List (Nat × Msg) :=
  match events with
  | [] =>
    match timeout with
    | none => (WaitResult.blocked, [])
    | some _ => (WaitResult.timeoutErr, [])
  | (d, m) :: es =>
    match timeout with
    | none => (WaitResult.got m, es)
    | some t => if (d : Int) ≤ t then (WaitResult.got m, es) else (WaitResult.timeoutErr, events)

/-- Embedding of `ProtocolClient.wait_for_notification` (lines 261-297):
pop and return the oldest queued message when the queue is non-empty;
otherwise receive (`timeout is None or timeout >= 0.0`) or, for a strictly
negative timeout, return `None` without touching the socket. -/
def wait_for_notification (timeout : Option Int) (notifs : List Msg)
    (events : List (Nat × Msg)) : WaitResult × List Msg × List (Nat × Msg) :=
  match notifs with
  | m :: rest => (WaitResult.got m, rest, events)
  | [] =>
    match timeout with
    | none =>
      let r := recv_json none events
      (r.1, [], r.2)
    | some t =>
      if 0 ≤ t then
        let r := recv_json (some t) events
        (r.1, [], r.2)
      else (WaitResult.noneAvail, [], events)

/-- Repeated invocations of `wait_for_notification`, one per entry of the
timeout list, threading the queue and the receive trace. -/
def drain : List (Option Int) → List Msg → List (Nat × Msg) →
    List WaitResult × List Msg × List (Nat × Msg)
  | [], notifs, events => ([], notifs, events)
  | t :: ts, notifs, events =>
    let r := wait_for_notification t notifs events
    let rest := drain ts r.2.1 r.2.2
    (r.1 :: rest.1, rest.2.1, rest.2.2)

theorem drain_queue (ts : List (Option Int)) :
    ∀ (q : List Msg) (events : List (Nat × Msg)), ts.length = q.length →
      drain ts q events = (q.map WaitResult.got, [], events) := by
  induction ts with
  | nil =>
    intro q events h
    cases q with
    | nil => rfl
    | cons x xs => simp at h
  | cons t ts ih =>
    intro q events h
    cases q with
    | nil => simp at h
    | cons x xs =>
      simp only [List.length_cons, Nat.succ.injEq] at h
      simp [drain, wait_for_notification, ih xs events h]

/-- C2: if a `call` with no deadline succeeds after queueing the
notification list `q`, then the next `q.length` invocations of
`wait_for_notification` (with arbitrary per-invocation timeouts) return
exactly the entries of `q`, one per invocation, in arrival (FIFO) order,
leaving the queue empty and the socket untouched. -/
theorem c2_fifo_delivery (name : String) (now : Nat) (events : List (Nat × Msg))
    (v : Nat) (q : List Msg) (ts : List (Option Int)) (laterEvents : List (Nat × Msg)) :
    call name none now events [] = (CallResult.success v, q) →
    ts.length = q.length →
    drain ts q laterEvents = (q.map WaitResult.got, [], laterEvents) := by
  intro _ hlen
  exact drain_queue ts q laterEvents hlen

/-- Witness for C2: a call queues two pushed lines, and the next two
`wait_for_notification` invocations deliver them in arrival order. -/
theorem c2_fifo_delivery_witness :
    drain [some 3, some (-1)] [⟨none, 7⟩, ⟨none, 8⟩] [] =
      ([WaitResult.got ⟨none, 7⟩, WaitResult.got ⟨none, 8⟩], [], []) := by
  exact c2_fifo_delivery ("version") 0 [(1, ⟨none, 7⟩), (1, ⟨none, 8⟩), (1, ⟨some 5, 9⟩)]
    5 [⟨none, 7⟩, ⟨none, 8⟩] [some 3, some (-1)] [] (by decide) (by decide)

/-- C5: `wait_for_notification` with a non-empty queue pops and returns the
oldest entry immediately whatever the timeout is, without receiving from
the socket; with an empty queue and a strictly negative timeout it returns
the none-available result, again leaving the receive trace untouched. -/
theorem c5_wait_poll_semantics (timeout : Option Int) (notifs : List Msg)
    (events : List (Nat × Msg)) :
    (∀ (m : Msg) (rest : List Msg), notifs = m :: rest →
      wait_for_notification timeout notifs events = (WaitResult.got m, rest, events))
    ∧ (∀ t : Int, notifs = [] → timeout = some t → t < 0 →
      wait_for_notification timeout notifs events = (WaitResult.noneAvail, [], events)) := by
  constructor
  · intro m rest h
    subst h
    rfl
  · intro t hq ht hneg
    subst hq; subst ht
    simp [wait_for_notification, not_le.mpr hneg]

/-- Witness for C5: both branches at concrete inputs. -/
theorem c5_wait_poll_semantics_witness :
    wait_for_notification (some (-2)) [⟨none, 3⟩] [(1, ⟨none, 4⟩)] =
        (WaitResult.got ⟨none, 3⟩, [], [(1, ⟨none, 4⟩)])
    ∧ wait_for_notification (some (-2)) [] [(1, ⟨none, 4⟩)] =
        (WaitResult.noneAvail, [], [(1, ⟨none, 4⟩)]) := by
  constructor
  · exact (c5_wait_poll_semantics (some (-2)) [⟨none, 3⟩] [(1, ⟨none, 4⟩)]).1 ⟨none, 3⟩ [] rfl
  · exact (c5_wait_poll_semantics (some (-2)) [] [(1, ⟨none, 4⟩)]).2 (-2) rfl rfl (by decide)

/-- Splitting on the dot separator, as `v.split(".")` does for a
single-character separator: `""` yields `[""]`, and separators at either
end yield empty components. -/
def splitOnDot : List Char → List (List Char)
  | [] => [[]]
  | c :: cs =>
    let r := splitOnDot cs
    if c = '.' then [] :: r
    else
      match r with
      | [] => [[c]]
      | x :: xs => (c :: x) :: xs

/-- Decimal reading of one component, as Python `int` behaves on the
digit-only components of a well-formed version string. -/
def parsePyInt (cs : List Char) : Nat :=
  cs.foldl (fun a c => a * 10 + (c.toNat - 48)) 0

/-- Embedding of `v_ints = tuple(map(int, v.split(".")[:3]))`
(job.py line 206). -/
def v_ints (v : String) : List Nat :=
  ((splitOnDot v.data).take 3).map parsePyInt

/-- Python tuple `<=` on integer tuples (lexicographic; a proper leading
slice of the other tuple counts as smaller). -/
def tupleLe : List Nat → List Nat → Bool
  | [], _ => true
  | _ :: _, [] => false
  | a :: as, b :: bs =>
    if a < b then true
    else if a = b then tupleLe as bs
    else false

/-- Python tuple `<` on integer tuples. -/
def tupleLt : List Nat → List Nat → Bool
  | [], [] => false
  | [], _ :: _ => true
  | _ :: _, [] => false
  | a :: as, b :: bs =>
    if a < b then true
    else if a = b then tupleLt as bs
    else false

/-- The compatibility test `(0, 0, 2) <= v_ints < (2, 0, 0)` of
`Job._assert_compatible_version` (job.py line 208). -/
def compatibleInts (t : List Nat) : Bool :=
  tupleLe [0, 0, 2] t && tupleLt t [2, 0, 0]

/-- Embedding of `Job._assert_compatible_version` (job.py lines 203-212):
`true` means the check passes; `false` means the client closes the
connection and fails with the incompatible-version error (raised as
`ValueError` in the Python source, the spec's `IncompatibleVersionError`). -/
def _assert_compatible_version (v : String) : Bool :=
  compatibleInts (v_ints v)

/-- Specification-side strict lexicographic order on version tuples,
stated through Mathlib's `List.Lex` rather than the embedded boolean. -/
def specTupleLt (a b : List Nat) : Prop :=
  List.Lex (· < ·) a b

theorem tupleLt_iff (a : List Nat) :
    ∀ b : List Nat, tupleLt a b = true ↔ specTupleLt a b := by
  induction a with
  | nil =>
    intro b
    cases b with
    | nil =>
      simp only [tupleLt, specTupleLt]
      constructor
      · intro h; cases h
      · intro h; cases h
    | cons y ys =>
      simp only [tupleLt, specTupleLt]
      constructor
      · intro _; exact List.Lex.nil
      · intro _; trivial
  | cons x xs ih =>
    intro b
    cases b with
    | nil =>
      simp only [tupleLt, specTupleLt]
      constructor
      · intro h; cases h
      · intro h; cases h
    | cons y ys =>
      simp only [tupleLt, specTupleLt]
      by_cases hlt : x < y
      · simp only [if_pos hlt]
        constructor
        · intro _; exact List.Lex.rel hlt
        · intro _; trivial
      · rw [if_neg hlt]
        by_cases heq : x = y
        · subst heq
          rw [if_pos rfl]
          constructor
          · intro h; exact List.Lex.cons ((ih ys).mp h)
          · intro h
            cases h with
            | cons h' => exact (ih ys).mpr h'
            | rel h' => exact absurd h' hlt
        · rw [if_neg heq]
          constructor
          · intro h; cases h
          · intro h
            cases h with
            | cons h' => exact absurd rfl heq
            | rel h' => exact absurd h' hlt

theorem tupleLe_iff (a : List Nat) :
    ∀ b : List Nat, tupleLe a b = true ↔ (a = b ∨ specTupleLt a b) := by
  induction a with
  | nil =>
    intro b
    cases b with
    | nil => simp [tupleLe, specTupleLt]
    | cons y ys =>
      simp only [tupleLe, specTupleLt]
      constructor
      · intro _; right; exact List.Lex.nil
      · intro _; trivial
  | cons x xs ih =>
    intro b
    cases b with
    | nil =>
      simp only [tupleLe, specTupleLt]
      constructor
      · intro h; cases h
      · rintro (h | h)
        · cases h
        · cases h
    | cons y ys =>
      simp only [tupleLe, specTupleLt]
      by_cases hlt : x < y
      · simp only [if_pos hlt]
        constructor
        · intro _; right; exact List.Lex.rel hlt
        · intro _; trivial
      · rw [if_neg hlt]
        by_cases heq : x = y
        · subst heq
          rw [if_pos rfl]
          constructor
          · intro h
            rcases (ih ys).mp h with h' | h'
            · left; rw [h']
            · right; exact List.Lex.cons h'
          · intro h
            apply (ih ys).mpr
            rcases h with h' | h'
            · left; exact (List.cons.injEq ..).mp h' |>.2
            · right
              cases h' with
              | cons h'' => exact h''
              | rel h'' => exact absurd h'' hlt
        · rw [if_neg heq]
          constructor
          · intro h; cases h
          · rintro (h | h)
            · exact absurd ((List.cons.injEq ..).mp h).1 heq
            · cases h with
              | cons h'' => exact absurd rfl heq
              | rel h'' => exact absurd h'' hlt

/-- C3: the version check accepts exactly the version strings whose tuple
of leading integer components lies in the closed-open range from
`(0, 0, 2)` up to `(2, 0, 0)` under lexicographic tuple comparison; in
particular `"0.0.1"` and `"2.0.0"` fail the check (raising the
incompatible-version error) while `"0.2.0"` and `"1.9.9"` pass. -/
theorem c3_version_gate :
    (∀ v : String, _assert_compatible_version v = true ↔
      (([0, 0, 2] = v_ints v ∨ specTupleLt [0, 0, 2] (v_ints v))
        ∧ specTupleLt (v_ints v) [2, 0, 0]))
    ∧ _assert_compatible_version ("0.0.1") = false
    ∧ _assert_compatible_version ("2.0.0") = false
    ∧ _assert_compatible_version ("0.2.0") = true
    ∧ _assert_compatible_version ("1.9.9") = true := by
  refine ⟨?_, ?_, ?_, ?_, ?_⟩
  · intro v
    unfold _assert_compatible_version compatibleInts
    rw [Bool.and_eq_true, tupleLe_iff, tupleLt_iff]
  · decide
  · decide
  · decide
  · decide

/-- C4 counterexample: a `call` with the finite deadline 5 whose only
received line is a pushed (return-less) message completing exactly as the
deadline elapses.  No line carrying `"return"` is ever received, yet the
loop guard fails on re-entry and `call` completes normally with Python's
implicit `None` (`noResponse`) instead of raising `ProtocolTimeoutError`,
refuting the claim as stated. -/
theorem c4_counterexample :
    call ("get_job_state") (some 5) 0 [(5, ⟨none, 7⟩)] [] =
        (CallResult.noResponse, [⟨none, 7⟩])
    ∧ CallResult.noResponse ≠ CallResult.timeoutErr := by
  constructor
  · decide
  · decide

theorem callLoop_no_return_finite (events : List (Nat × Msg)) :
    ∀ (f now : Nat) (notifs : List Msg),
      (∀ e ∈ events, (Prod.snd e).ret = none) →
      (callLoop (some f) now events notifs).1 = CallResult.timeoutErr
        ∨ (callLoop (some f) now events notifs).1 = CallResult.noResponse := by
  induction events with
  | nil =>
    intro f now notifs _
    unfold callLoop
    by_cases he : expired (some f) now = true
    · rw [if_pos he]; right; rfl
    · rw [if_neg he]; left; rfl
  | cons e es ih =>
    intro f now notifs hall
    obtain ⟨d, m⟩ := e
    unfold callLoop
    by_cases he : expired (some f) now = true
    · rw [if_pos he]; right; rfl
    · rw [if_neg he]
      dsimp only
      by_cases ht : recvTimesOut d (timeLeftOf (some f) now) = true
      · rw [if_pos ht]; left; rfl
      · rw [if_neg ht]
        have hm : m.ret = none := hall (d, m) (List.mem_cons_self _ _)
        rw [hm]
        exact ih f (now + d) (notifs ++ [m]) (fun e he' => hall e (List.mem_cons_of_mem _ he'))

/-- C4 amended: for every `call` with a finite deadline, if every received
line lacks `"return"`, the call either raises `ProtocolTimeoutError` or —
when the deadline elapses immediately after a pushed line is consumed —
completes normally returning `None`; it never completes with a response
value. -/
theorem c4_amended_timeout (name : String) (t now : Nat)
    (events : List (Nat × Msg)) (notifs : List Msg) :
    (∀ e ∈ events, (Prod.snd e).ret = none) →
    (call name (some t) now events notifs).1 = CallResult.timeoutErr
      ∨ (call name (some t) now events notifs).1 = CallResult.noResponse := by
  intro hall
  unfold call
  exact callLoop_no_return_finite events (now + t) now notifs hall

/-- Witness for the amended C4 at a concrete trace with only pushed lines. -/
theorem c4_amended_timeout_witness :
    (call ("version") (some 3) 0 [(1, ⟨none, 7⟩)] []).1 = CallResult.timeoutErr
      ∨ (call ("version") (some 3) 0 [(1, ⟨none, 7⟩)] []).1 = CallResult.noResponse := by
  exact c4_amended_timeout ("version") 3 0 [(1, ⟨none, 7⟩)] [] (by decide)

/-- Modelled from the spec: the `JobState` enumeration imported by job.py
from `spalloc.states`, a module not present under the sources; spec section
3 lists the server states as {queued, power, ready, destroyed, unknown}. -/
inductive JobState
  | unknown
  | queued
  | power
  | ready
  | destroyed
deriving DecidableEq, Repr

/-- One outcome of the bounded `wait_for_notification` probe inside
`Job.wait_for_state_change` (job.py lines 420-423): either a pushed line
arrived after `d` time units, or the probe raised `ProtocolTimeoutError`
(job.py line 424) after its full bound. -/
inductive WaitEv
  | notified (d : Nat)
  | timedOut
deriving DecidableEq, Repr

/-- The bound `wait_timeout` of the inner probe (job.py lines 411-419):
`min(self._keepalive / 2.0, time_left)` when both the overall deadline and
the keepalive interval are set, `self._keepalive / 2.0` when there is no
deadline, `time_left` when there is no keepalive.  `ka2` is the already
halved keepalive interval; the result `none` marks the remaining Python
case (`None / 2.0`), which raises `TypeError`. -/
def waitTimeoutVal (finish ka2 : Option Nat) (now : Nat) : Option Nat :=
  match finish, ka2 with
  | some f, some k => some (min k (f - now))
  | none, some k => some k
  | some f, none => some (f - now)
  | none, none => none

/-- Result of the keepalive-and-probe loop (job.py lines 399-431):
`gotNotif t ws` is the `break` after a notification arrived (at time `t`,
with `ws` the unconsumed probe outcomes), `deadlineHit` is the
`while ... else` arm returning the old state, `crashed` is the uncaught
`TypeError` when neither a deadline nor a keepalive interval exists, and
`starved` marks an exhausted environment trace. -/
inductive InnerOut
  | gotNotif (t : Nat) (ws : List WaitEv)
  | deadlineHit
  | crashed
  | starved
deriving Repr

/-- The keepalive-and-probe loop of `Job.wait_for_state_change` (job.py
lines 399-431): while the overall deadline has not elapsed, send a
keepalive, bound a notification wait by `waitTimeoutVal`, and either break
on a notification or swallow the probe's `ProtocolTimeoutError` and retry;
when the guard fails, the `else` arm gives up with the old state.  A
`notified d` event means the probe returned after `d ≤` its bound (`min`
clamps the recorded delay to the bound, past which the probe would instead
have timed out). -/
def innerLoop (finish ka2 : Option Nat) : Nat → List WaitEv → InnerOut
  | now, ws =>
    if expired finish now then InnerOut.deadlineHit
    else
      match waitTimeoutVal finish ka2 now with
      | none => InnerOut.crashed
      | some wt =>
        match ws with
        | [] => InnerOut.starved
        | WaitEv.notified d :: ws' => InnerOut.gotNotif (now + min d wt) ws'
        | WaitEv.timedOut :: ws' => innerLoop finish ka2 (now + wt) ws'

/-- Result of `Job.wait_for_state_change`: a returned state, the uncaught
`TypeError` of the no-deadline/no-keepalive configuration, or an exhausted
environment trace. -/
inductive WFSCResult
  | ret (s : JobState)
  | crashed
  | outOfTrace
deriving DecidableEq, Repr

/-- The state-watching loop of `Job.wait_for_state_change` (job.py lines
385-448) for runs without connection failures (the `except` arm of lines
432-444 reconnects and re-enters the same loop): while the deadline has
not elapsed, poll `get_state` (the environment supplies each polled state
with the delay the poll took), return any state that differs from
`old_state`, and otherwise run the keepalive-and-probe loop; both the
probe loop's `else` arm and the final fall-through return `old_state`. -/
def wfscLoop (old : JobState) (finish ka2 : Option Nat) :
    Nat → List (Nat × JobState) → List WaitEv → WFSCResult
  | now, polls, ws =>
    if expired finish now then WFSCResult.ret old
    else
      match polls with
      | [] => WFSCResult.outOfTrace
      | (d, s) :: ps =>
        if s ≠ old then WFSCResult.ret s
        else
          match innerLoop finish ka2 (now + d) ws with
          | InnerOut.gotNotif t ws' => wfscLoop old finish ka2 t ps ws'
          | InnerOut.deadlineHit => WFSCResult.ret old
          | InnerOut.crashed => WFSCResult.crashed
          | InnerOut.starved => WFSCResult.outOfTrace

/-- Embedding of `Job.wait_for_state_change(old_state, timeout)` (job.py
lines 366-448): `finish_time = time.time() + timeout`, then the watching
loop.  `ka2` is half the job's keepalive interval. -/
def wait_for_state_change (old : JobState) (timeout : Option Nat) (ka2 : Option Nat)
    (now : Nat) (polls : List (Nat × JobState)) (ws : List WaitEv) : WFSCResult :=
  wfscLoop old (timeout.map (fun t => now + t)) ka2 now polls ws

/-- First polled state that differs from `old`, if any. -/
def firstChange (old : JobState) : List (Nat × JobState) → Option JobState
  | [] => none
  | (_, s) :: ps => if s ≠ old then some s else firstChange old ps

theorem wfscLoop_ret (old : JobState) (finish ka2 : Option Nat) (polls : List (Nat × JobState)) :
    ∀ (now : Nat) (ws : List WaitEv) (s : JobState),
      wfscLoop old finish ka2 now polls ws = WFSCResult.ret s →
      s = old ∨ firstChange old polls = some s := by
  induction polls with
  | nil =>
    intro now ws s h
    unfold wfscLoop at h
    by_cases he : expired finish now = true
    · rw [if_pos he] at h
      left
      cases h
      rfl
    · rw [if_neg he] at h
      cases h
  | cons p ps ih =>
    intro now ws s h
    obtain ⟨d, s'⟩ := p
    unfold wfscLoop at h
    by_cases he : expired finish now = true
    · rw [if_pos he] at h
      left; cases h; rfl
    · rw [if_neg he] at h
      dsimp only at h
      by_cases hs : s' ≠ old
      · rw [if_pos hs] at h
        right
        cases h
        simp [firstChange, hs]
      · rw [if_neg hs] at h
        push_neg at hs
        cases hi : innerLoop finish ka2 (now + d) ws with
        | gotNotif t ws' =>
          rw [hi] at h
          rcases ih t ws' s h with h' | h'
          · left; exact h'
          · right; simpa [firstChange, hs] using h'
        | deadlineHit => rw [hi] at h; left; cases h; rfl
        | crashed => rw [hi] at h; cases h
        | starved => rw [hi] at h; cases h

/-- C6: whatever `wait_for_state_change(old_state, T)` returns is either
`old_state` itself (the deliberate "nothing happened yet" result, a normal
return rather than an error) or the first polled state that differs from
`old_state`; and whenever the deadline has not already elapsed and a poll
yields a state differing from `old_state`, that state is returned at once. -/
theorem c6_wait_for_state_change (old : JobState) (timeout : Option Nat)
    (ka2 : Option Nat) (now : Nat) (polls : List (Nat × JobState)) (ws : List WaitEv) :
    (∀ s : JobState, wait_for_state_change old timeout ka2 now polls ws = WFSCResult.ret s →
      s = old ∨ firstChange old polls = some s)
    ∧ (∀ (d : Nat) (s' : JobState) (ps : List (Nat × JobState)),
      timeout ≠ some 0 → s' ≠ old →
      wait_for_state_change old timeout ka2 now ((d, s') :: ps) ws = WFSCResult.ret s') := by
  constructor
  · intro s h
    exact wfscLoop_ret old (timeout.map (fun t => now + t)) ka2 polls now ws s h
  · intro d s' ps ht hs
    unfold wait_for_state_change wfscLoop
    have he : expired (timeout.map (fun t => now + t)) now = false := by
      cases timeout with
      | none => rfl
      | some t =>
        cases t with
        | zero => exact absurd rfl ht
        | succ k => simp [expired]
    rw [he]
    simp [hs]

/-- Witness for C6: with a five-tick deadline, a first poll of `ready`
differing from the old state `queued` is returned immediately. -/
theorem c6_wait_for_state_change_witness :
    wait_for_state_change JobState.queued (some 5) (some 10) 0
      [(1, JobState.ready)] [] = WFSCResult.ret JobState.ready := by
  exact (c6_wait_for_state_change JobState.queued (some 5) (some 10) 0
      [(1, JobState.ready)] []).2 1 JobState.ready [] (by decide) (by decide)

/-- The fields of the `JobStateTuple` returned by `Job.get_state` that
`wait_until_ready` reads: the state and the destruction reason. -/
structure StateInfo where
  state : JobState
  reason : Option String
deriving DecidableEq, Repr

/-- Outcome of `Job.wait_until_ready` (job.py lines 450-497): a normal
return on `ready`, a raised `JobDestroyedError` with its message, a raised
`StateChangeTimeoutError`, or an exhausted environment trace. -/
inductive ReadyOutcome
  | ready
  | destroyedErr (reason : Option String)
  | timeoutErr
  | outOfTrace
deriving DecidableEq, Repr

/-- Message of the `JobDestroyedError` raised on the `unknown` state
(job.py line 487). -/
def unknownMsg : String := "Server no longer recognises job."

/-- States in which `wait_until_ready` keeps waiting (`queued` and
`power`, job.py lines 478-481). -/
def isPending : JobState → Bool
  | JobState.queued => true
  | JobState.power => true
  | _ => false

/-- Body of the `wait_until_ready` loop once `cur_state` is known (job.py
lines 468-494), instrumented with the list of examined states.  `polls`
holds the `get_state` results still unread (consumed only by the
destruction-reason re-fetch of line 484); `waits` holds the successive
`wait_for_state_change` results with the time each took.  On `ready` the
call returns; on `destroyed` it re-fetches the state and raises
`JobDestroyedError` with that tuple's reason; on `unknown` it raises
`JobDestroyedError` with the fixed message; on `queued`/`power` it waits
for a state change and re-enters the loop, whose guard failing raises
`StateChangeTimeoutError`. -/
def wurGo (finish : Option Nat) (polls : List (Nat × StateInfo)) :
    Nat → JobState → List (Nat × JobState) → ReadyOutcome × List JobState
  | now, cur, waits =>
    match cur with
    | JobState.ready => (ReadyOutcome.ready, [JobState.ready])
    | JobState.destroyed =>
      match polls with
      | [] => (ReadyOutcome.outOfTrace, [JobState.destroyed])
      | (_, st) :: _ => (ReadyOutcome.destroyedErr st.reason, [JobState.destroyed])
    | JobState.unknown => (ReadyOutcome.destroyedErr (some unknownMsg), [JobState.unknown])
    | JobState.queued =>
      match waits with
      | [] => (ReadyOutcome.outOfTrace, [JobState.queued])
      | (dw, s') :: ws =>
        if expired finish (now + dw) then (ReadyOutcome.timeoutErr, [JobState.queued])
        else
          let r := wurGo finish polls (now + dw) s' ws
          (r.1, JobState.queued :: r.2)
    | JobState.power =>
      match waits with
      | [] => (ReadyOutcome.outOfTrace, [JobState.power])
      | (dw, s') :: ws =>
        if expired finish (now + dw) then (ReadyOutcome.timeoutErr, [JobState.power])
        else
          let r := wurGo finish polls (now + dw) s' ws
          (r.1, JobState.power :: r.2)

/-- Embedding of `Job.wait_until_ready(timeout)` (job.py lines 450-497):
compute `finish_time`, check the guard, fetch the initial state (the head
of `polls`), and run the loop body. -/
def wait_until_ready (timeout : Option Nat) (now : Nat)
    (polls : List (Nat × StateInfo)) (waits : List (Nat × JobState)) :
    ReadyOutcome × List JobState :=
  let finish := timeout.map (fun t => now + t)
  if expired finish now then (ReadyOutcome.timeoutErr, [])
  else
    match polls with
    | [] => (ReadyOutcome.outOfTrace, [])
    | (d, st) :: ps => wurGo finish ps (now + d) st.state waits

theorem wurGo_ready (finish : Option Nat) (polls : List (Nat × StateInfo))
    (now : Nat) (waits : List (Nat × JobState)) :
    wurGo finish polls now JobState.ready waits = (ReadyOutcome.ready, [JobState.ready]) := by
  cases waits <;> rfl

theorem wurGo_unknown (finish : Option Nat) (polls : List (Nat × StateInfo))
    (now : Nat) (waits : List (Nat × JobState)) :
    wurGo finish polls now JobState.unknown waits =
      (ReadyOutcome.destroyedErr (some unknownMsg), [JobState.unknown]) := by
  cases waits <;> rfl

theorem wurGo_destroyed_nil (finish : Option Nat) (now : Nat) (waits : List (Nat × JobState)) :
    wurGo finish [] now JobState.destroyed waits =
      (ReadyOutcome.outOfTrace, [JobState.destroyed]) := by
  cases waits <;> rfl

theorem wurGo_destroyed_cons (finish : Option Nat) (d : Nat) (st : StateInfo)
    (rest : List (Nat × StateInfo)) (now : Nat) (waits : List (Nat × JobState)) :
    wurGo finish ((d, st) :: rest) now JobState.destroyed waits =
      (ReadyOutcome.destroyedErr st.reason, [JobState.destroyed]) := by
  cases waits <;> rfl

theorem wurGo_queued_nil (finish : Option Nat) (polls : List (Nat × StateInfo)) (now : Nat) :
    wurGo finish polls now JobState.queued [] = (ReadyOutcome.outOfTrace, [JobState.queued]) := rfl

theorem wurGo_power_nil (finish : Option Nat) (polls : List (Nat × StateInfo)) (now : Nat) :
    wurGo finish polls now JobState.power [] = (ReadyOutcome.outOfTrace, [JobState.power]) := rfl

theorem wurGo_queued_cons (finish : Option Nat) (polls : List (Nat × StateInfo))
    (now dw : Nat) (s' : JobState) (ws : List (Nat × JobState)) :
    wurGo finish polls now JobState.queued ((dw, s') :: ws) =
      if expired finish (now + dw) then (ReadyOutcome.timeoutErr, [JobState.queued])
      else ((wurGo finish polls (now + dw) s' ws).1,
        JobState.queued :: (wurGo finish polls (now + dw) s' ws).2) := rfl

theorem wurGo_power_cons (finish : Option Nat) (polls : List (Nat × StateInfo))
    (now dw : Nat) (s' : JobState) (ws : List (Nat × JobState)) :
    wurGo finish polls now JobState.power ((dw, s') :: ws) =
      if expired finish (now + dw) then (ReadyOutcome.timeoutErr, [JobState.power])
      else ((wurGo finish polls (now + dw) s' ws).1,
        JobState.power :: (wurGo finish polls (now + dw) s' ws).2) := rfl

theorem wurGo_spec (finish : Option Nat) (polls : List (Nat × StateInfo))
    (waits : List (Nat × JobState)) :
    ∀ (now : Nat) (cur : JobState),
      ((wurGo finish polls now cur waits).1 = ReadyOutcome.ready →
        ∃ pre, (wurGo finish polls now cur waits).2 = pre ++ [JobState.ready]
          ∧ ∀ s ∈ pre, isPending s = true)
      ∧ (∀ reason, (wurGo finish polls now cur waits).1 = ReadyOutcome.destroyedErr reason →
        ∃ pre last, (wurGo finish polls now cur waits).2 = pre ++ [last]
          ∧ (∀ s ∈ pre, isPending s = true)
          ∧ ((last = JobState.destroyed
                ∧ ∃ (d : Nat) (q : StateInfo) (rest : List (Nat × StateInfo)),
                    polls = (d, q) :: rest ∧ reason = q.reason)
             ∨ (last = JobState.unknown ∧ reason = some unknownMsg)))
      ∧ ((wurGo finish polls now cur waits).1 = ReadyOutcome.timeoutErr →
        ∀ s ∈ (wurGo finish polls now cur waits).2, isPending s = true)
      ∧ ((wurGo finish polls now cur waits).1 = ReadyOutcome.outOfTrace →
        JobState.ready ∉ (wurGo finish polls now cur waits).2) := by
  induction waits with
  | nil =>
    intro now cur
    cases cur with
    | ready =>
      rw [wurGo_ready]
      dsimp only
      refine ⟨?_, ?_, ?_, ?_⟩
      · intro _; exact ⟨[], rfl, by simp⟩
      · intro reason h; cases h
      · intro h; cases h
      · intro h; cases h
    | unknown =>
      rw [wurGo_unknown]
      dsimp only
      refine ⟨?_, ?_, ?_, ?_⟩
      · intro h; cases h
      · intro reason h
        refine ⟨[], JobState.unknown, rfl, by simp, Or.inr ⟨rfl, ?_⟩⟩
        cases h
        rfl
      · intro h; cases h
      · intro h; cases h
    | destroyed =>
      cases polls with
      | nil =>
        rw [wurGo_destroyed_nil]
        dsimp only
        refine ⟨?_, ?_, ?_, ?_⟩
        · intro h; cases h
        · intro reason h; cases h
        · intro h; cases h
        · intro _; simp
      | cons p rest =>
        obtain ⟨d, q⟩ := p
        rw [wurGo_destroyed_cons]
        dsimp only
        refine ⟨?_, ?_, ?_, ?_⟩
        · intro h; cases h
        · intro reason h
          cases h
          exact ⟨[], JobState.destroyed, rfl, by simp, Or.inl ⟨rfl, d, q, rest, rfl, rfl⟩⟩
        · intro h; cases h
        · intro h; cases h
    | queued =>
      rw [wurGo_queued_nil]
      dsimp only
      refine ⟨?_, ?_, ?_, ?_⟩
      · intro h; cases h
      · intro reason h; cases h
      · intro h; cases h
      · intro _; simp
    | power =>
      rw [wurGo_power_nil]
      dsimp only
      refine ⟨?_, ?_, ?_, ?_⟩
      · intro h; cases h
      · intro reason h; cases h
      · intro h; cases h
      · intro _; simp
  | cons w ws ih =>
    obtain ⟨dw, s'⟩ := w
    intro now cur
    cases cur with
    | ready =>
      rw [wurGo_ready]
      dsimp only
      refine ⟨?_, ?_, ?_, ?_⟩
      · intro _; exact ⟨[], rfl, by simp⟩
      · intro reason h; cases h
      · intro h; cases h
      · intro h; cases h
    | unknown =>
      rw [wurGo_unknown]
      dsimp only
      refine ⟨?_, ?_, ?_, ?_⟩
      · intro h; cases h
      · intro reason h
        refine ⟨[], JobState.unknown, rfl, by simp, Or.inr ⟨rfl, ?_⟩⟩
        cases h
        rfl
      · intro h; cases h
      · intro h; cases h
    | destroyed =>
      cases polls with
      | nil =>
        rw [wurGo_destroyed_nil]
        dsimp only
        refine ⟨?_, ?_, ?_, ?_⟩
        · intro h; cases h
        · intro reason h; cases h
        · intro h; cases h
        · intro _; simp
      | cons p rest =>
        obtain ⟨d, q⟩ := p
        rw [wurGo_destroyed_cons]
        dsimp only
        refine ⟨?_, ?_, ?_, ?_⟩
        · intro h; cases h
        · intro reason h
          cases h
          exact ⟨[], JobState.destroyed, rfl, by simp, Or.inl ⟨rfl, d, q, rest, rfl, rfl⟩⟩
        · intro h; cases h
        · intro h; cases h
    | queued =>
      rw [wurGo_queued_cons]
      by_cases he : expired finish (now + dw) = true
      · rw [if_pos he]
        dsimp only
        refine ⟨?_, ?_, ?_, ?_⟩
        · intro h; cases h
        · intro reason h; cases h
        · intro _ s hs
          simp at hs
          simp [hs, isPending]
        · intro h; cases h
      · rw [if_neg he]
        obtain ⟨ha, hb, hc, hd⟩ := ih (now + dw) s'
        dsimp only
        refine ⟨?_, ?_, ?_, ?_⟩
        · intro h
          obtain ⟨pre, hpre, hall⟩ := ha h
          refine ⟨JobState.queued :: pre, by simp [hpre], ?_⟩
          intro s hs
          rcases List.mem_cons.mp hs with h' | h'
          · simp [h', isPending]
          · exact hall s h'
        · intro reason h
          obtain ⟨pre, last, hpre, hall, hcase⟩ := hb reason h
          refine ⟨JobState.queued :: pre, last, by simp [hpre], ?_, hcase⟩
          intro s hs
          rcases List.mem_cons.mp hs with h' | h'
          · simp [h', isPending]
          · exact hall s h'
        · intro h s hs
          rcases List.mem_cons.mp hs with h' | h'
          · simp [h', isPending]
          · exact hc h s h'
        · intro h hmem
          rcases List.mem_cons.mp hmem with h' | h'
          · cases h'
          · exact hd h h'
    | power =>
      rw [wurGo_power_cons]
      by_cases he : expired finish (now + dw) = true
      · rw [if_pos he]
        dsimp only
        refine ⟨?_, ?_, ?_, ?_⟩
        · intro h; cases h
        · intro reason h; cases h
        · intro _ s hs
          simp at hs
          simp [hs, isPending]
        · intro h; cases h
      · rw [if_neg he]
        obtain ⟨ha, hb, hc, hd⟩ := ih (now + dw) s'
        dsimp only
        refine ⟨?_, ?_, ?_, ?_⟩
        · intro h
          obtain ⟨pre, hpre, hall⟩ := ha h
          refine ⟨JobState.power :: pre, by simp [hpre], ?_⟩
          intro s hs
          rcases List.mem_cons.mp hs with h' | h'
          · simp [h', isPending]
          · exact hall s h'
        · intro reason h
          obtain ⟨pre, last, hpre, hall, hcase⟩ := hb reason h
          refine ⟨JobState.power :: pre, last, by simp [hpre], ?_, hcase⟩
          intro s hs
          rcases List.mem_cons.mp hs with h' | h'
          · simp [h', isPending]
          · exact hall s h'
        · intro h s hs
          rcases List.mem_cons.mp hs with h' | h'
          · simp [h', isPending]
          · exact hc h s h'
        · intro h hmem
          rcases List.mem_cons.mp hmem with h' | h'
          · cases h'
          · exact hd h h'

/-- C7: `wait_until_ready` returns normally exactly when a polled state is
`ready` (all states examined before it being the pending states `queued`
or `power`); it raises `JobDestroyedError` the first time the examined
state is `destroyed` — carrying the reason of the follow-up `get_state`
fetch — or `unknown` — carrying the fixed no-longer-recognised message;
and when the deadline is exceeded it raises `StateChangeTimeoutError`,
every state examined up to then having been pending (never `ready`). -/
theorem c7_wait_until_ready (timeout : Option Nat) (now : Nat)
    (polls : List (Nat × StateInfo)) (waits : List (Nat × JobState)) :
    ((wait_until_ready timeout now polls waits).1 = ReadyOutcome.ready →
      ∃ pre, (wait_until_ready timeout now polls waits).2 = pre ++ [JobState.ready]
        ∧ ∀ s ∈ pre, isPending s = true)
    ∧ (∀ reason, (wait_until_ready timeout now polls waits).1 = ReadyOutcome.destroyedErr reason →
      ∃ pre last, (wait_until_ready timeout now polls waits).2 = pre ++ [last]
        ∧ (∀ s ∈ pre, isPending s = true)
        ∧ ((last = JobState.destroyed
              ∧ ∃ (p0 : Nat × StateInfo) (d : Nat) (q : StateInfo)
                  (rest : List (Nat × StateInfo)),
                  polls = p0 :: (d, q) :: rest ∧ reason = q.reason)
           ∨ (last = JobState.unknown ∧ reason = some unknownMsg)))
    ∧ ((wait_until_ready timeout now polls waits).1 = ReadyOutcome.timeoutErr →
      ∀ s ∈ (wait_until_ready timeout now polls waits).2, isPending s = true)
    ∧ ((wait_until_ready timeout now polls waits).1 = ReadyOutcome.outOfTrace →
      JobState.ready ∉ (wait_until_ready timeout now polls waits).2) := by
  unfold wait_until_ready
  by_cases he : expired (timeout.map (fun t => now + t)) now = true
  · rw [if_pos he]
    dsimp only
    refine ⟨?_, ?_, ?_, ?_⟩
    · intro h; cases h
    · intro reason h; cases h
    · intro _ s hs; simp at hs
    · intro h; cases h
  · rw [if_neg he]
    cases polls with
    | nil =>
      dsimp only
      refine ⟨?_, ?_, ?_, ?_⟩
      · intro h; cases h
      · intro reason h; cases h
      · intro h; cases h
      · intro _; simp
    | cons p ps =>
      obtain ⟨d0, st⟩ := p
      dsimp only
      obtain ⟨ha, hb, hc, hd⟩ :=
        wurGo_spec (timeout.map (fun t => now + t)) ps waits (now + d0) st.state
      refine ⟨ha, ?_, hc, hd⟩
      intro reason h
      obtain ⟨pre, last, hpre, hall, hcase⟩ := hb reason h
      refine ⟨pre, last, hpre, hall, ?_⟩
      rcases hcase with ⟨hl, d, q, rest, hps, hr⟩ | hr
      · exact Or.inl ⟨hl, (d0, st), d, q, rest, by rw [hps], hr⟩
      · exact Or.inr hr

/-- Concrete environment for the C7 witness: the initial poll reports
`queued`, a state change yields `destroyed`, and the follow-up fetch
carries the destruction reason. -/
def c7DemoPolls : List (Nat × StateInfo) :=
  [(1, ⟨JobState.queued, none⟩), (1, ⟨JobState.destroyed, some ("job terminated")⟩)]

/-- Wait outcomes for the C7 witness. -/
def c7DemoWaits : List (Nat × JobState) := [(1, JobState.destroyed)]

/-- Witness for C7: at the concrete environment, `wait_until_ready` raises
`JobDestroyedError` carrying the re-fetched destruction reason. -/
theorem c7_wait_until_ready_witness :
    ∃ pre last, (wait_until_ready none 0 c7DemoPolls c7DemoWaits).2 = pre ++ [last]
      ∧ (∀ s ∈ pre, isPending s = true)
      ∧ ((last = JobState.destroyed
            ∧ ∃ (p0 : Nat × StateInfo) (d : Nat) (q : StateInfo)
                (rest : List (Nat × StateInfo)),
                c7DemoPolls = p0 :: (d, q) :: rest ∧ some ("job terminated") = q.reason)
         ∨ (last = JobState.unknown ∧ some ("job terminated") = some unknownMsg)) := by
  exact (c7_wait_until_ready none 0 c7DemoPolls c7DemoWaits).2.1
    (some ("job terminated")) (by decide)

/-- Python exception classes relevant to the client's error handling.
`attributeError` is raised when an unset attribute of a bare
`threading.local()` object is read; `otherError` stands for any exception
outside the caught communication failures. -/
inductive PyError
  | ioError
  | osError
  | protocolTimeout
  | attributeError
  | otherError
deriving DecidableEq, Repr

/-- Steps `Job.destroy` performs, in order. -/
inductive DestroyAction
  | stopSet
  | joinSentinel
  | destroyJobReq
  | logWarning (e : PyError)
  | closeClient
deriving DecidableEq, Repr

/-- Exceptions caught by the `except (IOError, OSError,
ProtocolTimeoutError)` arm of `Job.destroy` (job.py line 287): exactly the
communication failures. -/
def destroyCaught : PyError → Bool
  | PyError.ioError => true
  | PyError.osError => true
  | PyError.protocolTimeout => true
  | _ => false

/-- Embedding of `Job.destroy(reason)` (job.py lines 273-290) over the
outcome of the `destroy_job` request: set the stop event and join the
keepalive thread, attempt `destroy_job`, log (rather than raise) any
caught communication failure, and close the client.  An uncaught
exception propagates before `close` runs (there is no `finally`). -/
def destroy (rpc : Except PyError Unit) : Except PyError (List DestroyAction) :=
  match rpc with
  | Except.ok _ =>
    Except.ok [DestroyAction.stopSet, DestroyAction.joinSentinel,
      DestroyAction.destroyJobReq, DestroyAction.closeClient]
  | Except.error e =>
    if destroyCaught e then
      Except.ok [DestroyAction.stopSet, DestroyAction.joinSentinel,
        DestroyAction.destroyJobReq, DestroyAction.logWarning e, DestroyAction.closeClient]
    else Except.error e

/-- C8: for every outcome of the `destroy_job` request that is a success
or a communication failure (`IOError`, `OSError`,
`ProtocolTimeoutError`), `destroy` completes without raising; its first
two steps signal and join the keepalive sentinel, the `destroy_job`
attempt comes next, any failure contributes only a logged warning, and
closing the connection is unconditionally the final step. -/
theorem c8_destroy_never_raises (rpc : Except PyError Unit) :
    (rpc = Except.ok () ∨ ∃ e, rpc = Except.error e ∧ destroyCaught e = true) →
    ∃ mid, destroy rpc =
        Except.ok ([DestroyAction.stopSet, DestroyAction.joinSentinel,
          DestroyAction.destroyJobReq] ++ mid ++ [DestroyAction.closeClient])
      ∧ ∀ a ∈ mid, ∃ e, a = DestroyAction.logWarning e ∧ destroyCaught e = true := by
  intro h
  rcases h with h | ⟨e, h, hc⟩
  · subst h
    exact ⟨[], rfl, by simp⟩
  · subst h
    refine ⟨[DestroyAction.logWarning e], ?_, ?_⟩
    · simp [destroy, hc]
    · intro a ha
      simp at ha
      exact ⟨e, ha, hc⟩

/-- Witness for C8: a timed-out `destroy_job` request is logged and the
connection still closed, with no exception escaping. -/
theorem c8_destroy_never_raises_witness :
    ∃ mid, destroy (Except.error PyError.protocolTimeout) =
        Except.ok ([DestroyAction.stopSet, DestroyAction.joinSentinel,
          DestroyAction.destroyJobReq] ++ mid ++ [DestroyAction.closeClient])
      ∧ ∀ a ∈ mid, ∃ e, a = DestroyAction.logWarning e ∧ destroyCaught e = true := by
  exact c8_destroy_never_raises (Except.error PyError.protocolTimeout)
    (Or.inr ⟨PyError.protocolTimeout, rfl, rfl⟩)

/-- State of the `ProtocolClient` connection manager: the worker-to-socket
table `_socks` (worker identity and socket identity as numbers), the
`_dead` flag, the identities of every socket closed so far in close order,
a fresh-socket supply, and the calling worker's thread-local `sock`
attribute — `none` models a bare `threading.local()` whose `sock`
attribute has never been assigned (reading it raises `AttributeError`),
`some s` models `self._local.sock = s`. -/
structure CMState where
  socks : List (Nat × Nat)
  dead : Bool
  closedSocks : List Nat
  nextSock : Nat
  localSock : Option (Option Nat)
deriving DecidableEq, Repr

/-- Lookup `self._socks.get(key, None)`. -/
def lookupSock (w : Nat) : List (Nat × Nat) → Option Nat
  | [] => none
  | (k, s) :: rest => if k = w then some s else lookupSock w rest

/-- Removal `del self._socks[key]`. -/
def removeSock (w : Nat) : List (Nat × Nat) → List (Nat × Nat)
  | [] => []
  | (k, s) :: rest => if k = w then removeSock w rest else (k, s) :: removeSock w rest

/-- Embedding of `ProtocolClient._get_connection` (protocol_client.py
lines 70-92) for the calling worker `w`: return no connection when the
manager is dead; otherwise return the worker's tracked socket, creating,
recording and connecting a fresh one (and assigning the thread-local
`sock` attribute) when absent. -/
def _get_connection (w : Nat) (st : CMState) : Option Nat × CMState :=
  if st.dead then (none, st)
  else
    match lookupSock w st.socks with
    | some s => (some s, st)
    | none =>
      (some st.nextSock,
       { st with socks := (w, st.nextSock) :: st.socks,
                 nextSock := st.nextSock + 1,
                 localSock := some (some st.nextSock) })

/-- Embedding of `ProtocolClient._close` (lines 121-132) invoked by the
worker `w` itself: remove and close the worker's tracked socket, if any,
resetting the thread-local `sock` attribute to `None`. -/
def _closeOne (w : Nat) (st : CMState) : CMState :=
  match lookupSock w st.socks with
  | none => st
  | some s =>
    { st with socks := removeSock w st.socks,
              closedSocks := st.closedSocks ++ [s],
              localSock := some none }

/-- Embedding of `ProtocolClient.close` (lines 134-141): mark the manager
dead, `_close` every tracked key (removing each entry and closing each
socket, in table order), and replace `self._local` with a fresh
`threading.local()`, discarding the thread-local attributes. -/
def close (st : CMState) : CMState :=
  { socks := [],
    dead := true,
    closedSocks := st.closedSocks ++ st.socks.map Prod.snd,
    nextSock := st.nextSock,
    localSock := none }

/-- Embedding of `ProtocolClient.connect` (lines 94-106) for the calling
worker `w`: read `self._local.sock` (raising `AttributeError` when the
attribute was never assigned, as after `close` replaced `_local`), close
any existing connection, clear the dead flag, and reconnect through
`_get_connection` (the socket-level connect is assumed to succeed). -/
def connect (w : Nat) (st : CMState) : Except PyError (Option Nat × CMState) :=
  match st.localSock with
  | none => Except.error PyError.attributeError
  | some l =>
    let st1 := if l.isSome then _closeOne w st else st
    let st2 := { st1 with dead := false }
    Except.ok (_get_connection w st2)

/-- A sequence of `_get_connection` calls by the listed workers, threading
the manager state. -/
def runGets : List Nat → CMState → List (Option Nat) × CMState
  | [], st => ([], st)
  | w :: rest, st =>
    let r := _get_connection w st
    let rr := runGets rest r.2
    (r.1 :: rr.1, rr.2)

theorem runGets_dead (ws : List Nat) :
    ∀ st : CMState, st.dead = true → runGets ws st = (ws.map (fun _ => none), st) := by
  induction ws with
  | nil => intro st _; rfl
  | cons w rest ih =>
    intro st hd
    simp only [runGets, _get_connection, hd, if_true, List.map_cons]
    rw [ih st hd]

/-- C9: after `close`, the dead flag is set, the connection table is empty
with every previously tracked socket closed, and every subsequent
`_get_connection` — by any worker, in any sequence — returns no connection
and leaves the state untouched; however the code's `connect` then raises
`AttributeError` on the unset thread-local `sock` attribute of the fresh
`threading.local()` installed by `close`, before ever clearing the dead
flag — refuting the claim's final clause that a subsequent `connect`
clears it (job.py's `_reconnect` and `_keepalive_process.keep_job_alive`
rely on that clause, so the code, not the claim, is at fault). -/
theorem c9_close_semantics (st : CMState) (ws : List Nat) (w : Nat) :
    (close st).dead = true
    ∧ (close st).socks = []
    ∧ (close st).closedSocks = st.closedSocks ++ st.socks.map Prod.snd
    ∧ runGets ws (close st) = (ws.map (fun _ => none), close st)
    ∧ connect w (close st) = Except.error PyError.attributeError := by
  refine ⟨rfl, rfl, rfl, ?_, rfl⟩
  exact runGets_dead ws (close st) rfl

/-- Split a byte buffer at its first newline (byte 10), as
`buffer.partition(b"\n")` does when a newline is present: the part before
the first newline and the part after it. -/
def splitFirstNl : List Nat → Option (List Nat × List Nat)
  | [] => none
  | b :: bs =>
    if b = 10 then some ([], bs)
    else
      match splitFirstNl bs with
      | none => none
      | some (l, r) => some (b :: l, r)

/-- Outcome of one `_recv_json` invocation at the byte level: a complete
line (without its newline) together with the new read buffer and the
unread socket chunks, the `OSError` raised on an empty read (connection
closed), or an exhausted chunk trace (the Python loop would block in
`recv` or raise `ProtocolTimeoutError`, according to the timeout). -/
inductive RecvOut
  | line (msg : List Nat) (buf : List Nat) (chunks : List (List Nat))
  | connClosed
  | starved
deriving DecidableEq, Repr

/-- Byte-level embedding of `ProtocolClient._recv_json` (protocol_client.py
lines 143-181): while the read buffer holds no newline, append the next
socket chunk (an empty read raises `OSError`); then split the buffer at
its first newline, keep everything after it as the new buffer, and
deliver the line before it (`json.loads` of the line is not modelled —
the delivered value is the raw line). -/
def _recv_json : List (List Nat) → List Nat → RecvOut
  | [], buf =>
    match splitFirstNl buf with
    | some (l, r) => RecvOut.line l r []
    | none => RecvOut.starved
  | c :: cs, buf =>
    match splitFirstNl buf with
    | some (l, r) => RecvOut.line l r (c :: cs)
    | none => if c = [] then RecvOut.connClosed else _recv_json cs (buf ++ c)

/-- Successive `_recv_json` invocations, delivering up to `k` lines. -/
def recvSeq : Nat → List (List Nat) → List Nat → List (List Nat)
  | 0, _, _ => []
  | k + 1, chunks, buf =>
    match _recv_json chunks buf with
    | RecvOut.line m buf' chunks' => m :: recvSeq k chunks' buf'
    | _ => []

/-- Concatenation of newline-terminated messages, as they sit in the read
buffer after one socket read delivered them all. -/
def joinNl : List (List Nat) → List Nat
  | [] => []
  | m :: ms => m ++ 10 :: joinNl ms

theorem splitFirstNl_append (pre : List Nat) :
    ∀ post : List Nat, (10 : Nat) ∉ pre →
      splitFirstNl (pre ++ 10 :: post) = some (pre, post) := by
  induction pre with
  | nil => intro post _; simp [splitFirstNl]
  | cons b bs ih =>
    intro post h
    have hb : b ≠ 10 := fun hb => h (by simp [hb])
    have hbs : (10 : Nat) ∉ bs := fun hm => h (List.mem_cons_of_mem _ hm)
    simp only [List.cons_append, splitFirstNl, if_neg hb, List.append_eq, ih post hbs]

theorem recv_json_unfold (chunks : List (List Nat)) (buf : List Nat) :
    _recv_json chunks buf =
      match splitFirstNl buf with
      | some (l, r) => RecvOut.line l r chunks
      | none =>
        match chunks with
        | [] => RecvOut.starved
        | c :: cs => if c = [] then RecvOut.connClosed else _recv_json cs (buf ++ c) := by
  cases chunks <;> rfl

theorem recv_line_of_buffer (pre post : List Nat) (chunks : List (List Nat)) :
    (10 : Nat) ∉ pre →
    _recv_json chunks (pre ++ 10 :: post) = RecvOut.line pre post chunks := by
  intro h
  rw [recv_json_unfold, splitFirstNl_append pre post h]

theorem recvSeq_joinNl (msgs : List (List Nat)) :
    ∀ chunks : List (List Nat), (∀ m ∈ msgs, (10 : Nat) ∉ m) →
      recvSeq msgs.length chunks (joinNl msgs) = msgs := by
  induction msgs with
  | nil => intro chunks _; rfl
  | cons m ms ih =>
    intro chunks hall
    have hm : (10 : Nat) ∉ m := hall m (List.mem_cons_self _ _)
    have hms : ∀ x ∈ ms, (10 : Nat) ∉ x := fun x hx => hall x (List.mem_cons_of_mem _ hx)
    simp only [List.length_cons, recvSeq, joinNl]
    rw [recv_line_of_buffer m (joinNl ms) chunks hm]
    dsimp only
    rw [ih chunks hms]

/-- C10: one `_recv_json` invocation on a buffer already holding a newline
consumes exactly the bytes up to and including that first newline,
delivers them (sans newline) as the line, preserves every following byte
in the buffer and reads nothing further from the socket; consequently,
when several newline-terminated messages arrive in one socket read,
successive invocations deliver them one per call, in order and without
loss. -/
theorem c10_recv_buffer_discipline (pre post : List Nat) (chunks : List (List Nat))
    (msgs : List (List Nat)) :
    ((10 : Nat) ∉ pre →
      _recv_json chunks (pre ++ 10 :: post) = RecvOut.line pre post chunks)
    ∧ ((∀ m ∈ msgs, (10 : Nat) ∉ m) →
      recvSeq msgs.length chunks (joinNl msgs) = msgs) := by
  exact ⟨recv_line_of_buffer pre post chunks, recvSeq_joinNl msgs chunks⟩

/-- Witness for C10: three messages delivered in one read come back one
per invocation, in order. -/
theorem c10_recv_buffer_discipline_witness :
    _recv_json [] ([65] ++ 10 :: (66 :: 10 :: 67 :: [10])) = RecvOut.line [65] (66 :: 10 :: 67 :: [10]) []
    ∧ recvSeq 3 [] (joinNl [[65], [66], [67]]) = [[65], [66], [67]] := by
  constructor
  · exact (c10_recv_buffer_discipline [65] (66 :: 10 :: 67 :: [10]) [] [[65], [66], [67]]).1
      (by decide)
  · exact (c10_recv_buffer_discipline [65] (66 :: 10 :: 67 :: [10]) [] [[65], [66], [67]]).2
      (by decide)
